import Mathlib

/-!
Verification of the build-descriptor merge logic of `generators/app/index.js`
(the POM-patching part of the `writing` step, lines 84-147).

The JavaScript code manipulates the descriptor as a plain string using
`String.prototype.includes` and `String.prototype.replace` with non-global
regular expressions.  We embed documents as `List Char` and model exactly the
regex features the source uses:

* literal characters and the unescaped `.` (any character except a line
  terminator, since neither the `s` nor the `m` flag is used);
* `.*` (greedy, does not cross line terminators, backtracks to the last
  position where the closing literal still matches);
* the negative lookahead `(?!spring-boot-starter-parent)` of the
  artifactId-renaming regex;
* leftmost-match, first-occurrence-only replacement (no `g` flag).
-/

namespace PomMerge

set_option maxRecDepth 200000

abbrev Str := List Char

/-- `String` literal to `List Char` document fragment. -/
def S (s : String) : Str := s.data

/-- JavaScript line terminators: the characters `.` does not match
(`\n`, `\r`, U+2028, U+2029). -/
def isNlChar (c : Char) : Bool :=
  c = '\n' || c = '\r' || c.val = 0x2028 || c.val = 0x2029

/-- One token of a regex pattern: a literal character or the wildcard `.`. -/
inductive Tok where
  | lit (c : Char)
  | dot
deriving DecidableEq

/-- A regex pattern without quantifiers: a fixed-length token sequence. -/
abbrev Pat := List Tok

def tokMatch : Tok → Char → Bool
  | .lit a, c => a == c
  | .dot,   c => !(isNlChar c)

/-- Does the pattern match a prefix of the text? -/
def patMatch : Pat → Str → Bool
  | [],      _       => true
  | _ :: _,  []      => false
  | t :: ts, c :: cs => tokMatch t c && patMatch ts cs

def litPat (s : String) : Pat := s.data.map Tok.lit

/-- `String.prototype.includes`: literal substring test. -/
def inc (pat : Str) : Str → Bool
  | []        => pat.isPrefixOf []
  | c :: rest => pat.isPrefixOf (c :: rest) || inc pat rest

/-- Scan for the leftmost occurrence of the literal `pat`, carrying the
absolute index of the current position. -/
def findFromAux (pat : Str) : Str → Nat → Option Nat
  | [],        i => if pat.isPrefixOf [] then some i else none
  | c :: rest, i =>
    if pat.isPrefixOf (c :: rest) then some i
    else findFromAux pat rest (i + 1)

/-- Index of the leftmost occurrence of the literal `pat`. -/
def findFrom (pat s : Str) : Option Nat := findFromAux pat s 0

/-- Replace the first occurrence of the literal `pat` by `repl`
(`s.replace(/lit/, repl)`); the string is returned unchanged when there is
no occurrence. -/
def replaceFirstLit (pat repl : Str) (s : Str) : Str :=
  match findFrom pat s with
  | none   => s
  | some i => s.take i ++ repl ++ s.drop (i + pat.length)

/-- Length of the maximal prefix free of line terminators: the furthest the
greedy `.*` can reach. -/
def nlRunLen : Str → Nat
  | []        => 0
  | c :: rest => if isNlChar c then 0 else nlRunLen rest + 1

/-- Greatest `k' ≤ k` at which `close` matches `t.drop k'` (the backtracking
of a greedy `.*` followed by `close`). -/
def lastHit (close : Pat) (t : Str) : Nat → Option Nat
  | 0 => if patMatch close t then some 0 else none
  | k + 1 =>
    if patMatch close (t.drop (k + 1)) then some (k + 1)
    else lastHit close t k

/--
Leftmost match of `openM` followed by greedy `.*` followed by `close`,
returning `(start index, total match length)`.  `openM t` returns the number
of characters the opening part consumes when it matches a prefix of `t`.
At each position the opening part is tried; if it matches and a closing match
exists on the same line, the whole regex matches there (with the greedy,
i.e. last, closing position); otherwise the scan moves one character right,
exactly like the JavaScript regex engine's leftmost-match rule.
-/
def findOCAux (openM : Str → Option Nat) (close : Pat) : Str → Nat → Option (Nat × Nat)
  | [], i =>
    match openM [] with
    | none => none
    | some len =>
      match lastHit close [] (nlRunLen ([] : Str)) with
      | none   => none
      | some k => some (i, len + k + close.length)
  | c :: rest, i =>
    match openM (c :: rest) with
    | none => findOCAux openM close rest (i + 1)
    | some len =>
      match lastHit close ((c :: rest).drop len) (nlRunLen ((c :: rest).drop len)) with
      | none   => findOCAux openM close rest (i + 1)
      | some k => some (i, len + k + close.length)

def findOC (openM : Str → Option Nat) (close : Pat) (s : Str) : Option (Nat × Nat) :=
  findOCAux openM close s 0

/-- `s.replace(/open.*close/, repl)` where `repl` may use `$1` bound to the
whole match (hence a function of the matched text). -/
def replaceOC (openM : Str → Option Nat) (close : Pat) (repl : Str → Str)
    (s : Str) : Str :=
  match findOC openM close s with
  | none        => s
  | some (i, d) => s.take i ++ repl ((s.drop i).take d) ++ s.drop (i + d)

/-- Opening part made of a fixed pattern. -/
def pOpen (p : Pat) (t : Str) : Option Nat :=
  if patMatch p t then some p.length else none

/-- Opening part of `/<artifactId>(?!spring-boot-starter-parent).*<\/artifactId>/`:
the literal tag with the negative lookahead. -/
def artOpen (t : Str) : Option Nat :=
  if patMatch (litPat "<artifactId>") t
      && !(patMatch (litPat "spring-boot-starter-parent") (t.drop 12))
  then some 12 else none

/-- `/<java.version>/` with its unescaped dot. -/
def jvOpen : Pat := litPat "<java" ++ [Tok.dot] ++ litPat "version>"

/-- `/<\/java.version>/` with its unescaped dot. -/
def jvClose : Pat := litPat "</java" ++ [Tok.dot] ++ litPat "version>"

/-- The configuration the generator feeds into the POM patching: the base
artifact id (`this.baseName = answers.artifactId`), the packaging type and
the Java version chosen at the prompt. -/
structure Config where
  baseName : String
  packaging : String
  javaVersion : String

/-- The prompt layer only supplies plain identifiers and enum values
(`jar`/`war`, `17`/`20`, a project name); in particular no configuration
string contains a `<`. -/
def ValidConfig (cfg : Config) : Prop :=
  (∀ c ∈ S cfg.baseName, c ≠ '<') ∧
  (∀ c ∈ S cfg.packaging, c ≠ '<') ∧
  (∀ c ∈ S cfg.javaVersion, c ≠ '<')

instance (cfg : Config) : Decidable (ValidConfig cfg) := by
  unfold ValidConfig; infer_instance

/-- Lines 89-92: rename the first artifactId that is not the Spring Boot
parent to `${baseName}-backend`. -/
def renameArtifact (cfg : Config) (pom : Str) : Str :=
  replaceOC artOpen (litPat "</artifactId>")
    (fun _ => S "<artifactId>" ++ S cfg.baseName ++ S "-backend</artifactId>") pom

/-- Lines 95-102: overwrite `<packaging>` if present, else insert one right
after `<modelVersion>...</modelVersion>`. -/
def setPackaging (cfg : Config) (pom : Str) : Str :=
  if inc (S "<packaging>") pom = true then
    replaceOC (pOpen (litPat "<packaging>")) (litPat "</packaging>")
      (fun _ => S "<packaging>" ++ S cfg.packaging ++ S "</packaging>") pom
  else
    replaceOC (pOpen (litPat "<modelVersion>")) (litPat "</modelVersion>")
      (fun m => m ++ S "\n  <packaging>" ++ S cfg.packaging ++ S "</packaging>") pom

/-- Lines 105-112: overwrite `<java.version>` if present, else insert a
properties block right before `<parent>`. -/
def setJavaVersion (cfg : Config) (pom : Str) : Str :=
  if inc (S "<java.version>") pom = true then
    replaceOC (pOpen jvOpen) jvClose
      (fun _ => S "<java.version>" ++ S cfg.javaVersion ++ S "</java.version>") pom
  else
    replaceFirstLit (S "<parent>")
      (S "  <properties>\n    <java.version>" ++ S cfg.javaVersion
        ++ S "</java.version>\n  </properties>\n" ++ S "<parent>") pom

/-- The fixed head of the maven-resources-plugin snippet of lines 115-139,
up to the frontend folder name interpolated into `<directory>`. -/
def snipA : Str := S "\n      <plugin>\n        <artifactId>maven-resources-plugin</artifactId>\n        <executions>\n          <execution>\n            <id>copy-frontend</id>\n            <phase>process-resources</phase>\n            <goals>\n              <goal>copy-resources</goal>\n            </goals>\n            <configuration>\n              <outputDirectory>$\x7bproject.build.directory\x7d/classes/static</outputDirectory>\n              <resources>\n                <resource>\n                  <directory>$\x7bproject.parent.basedir\x7d/"

/-- The fixed tail of the plugin snippet after the interpolated base name
(the frontend folder is `${baseName}-frontend`). -/
def snipB : Str := S "-frontend/dist</directory>\n                  <includes>\n                    <include>**/*</include>\n                  </includes>\n                </resource>\n              </resources>\n            </configuration>\n          </execution>\n        </executions>\n      </plugin>\n    "

/-- The interpolated `pluginSnippet` template literal. -/
def pluginSnippet (cfg : Config) : Str := snipA ++ S cfg.baseName ++ snipB

/-- Lines 141-145: prepend the snippet inside an existing `<plugins>`
container, else try to open one right after an existing `<build>` tag. -/
def injectPlugin (cfg : Config) (pom : Str) : Str :=
  if inc (S "<plugins>") pom = true then
    replaceFirstLit (S "<plugins>") (S "<plugins>" ++ pluginSnippet cfg) pom
  else
    replaceFirstLit (S "<build>")
      (S "<build>\n<plugins>" ++ pluginSnippet cfg ++ S "</plugins>") pom

/-- The whole backend-POM transformation of lines 88-147, in source order. -/
def mergePom (cfg : Config) (pom : Str) : Str :=
  injectPlugin cfg (setJavaVersion cfg (setPackaging cfg (renameArtifact cfg pom)))

/-! ### Concrete documents and configuration used to test the claims -/

/-- Representative configuration of the end-to-end scenario:
`{artifactId: "shop", packaging: "war", languageVersion: "17"}` (the frontend
asset path `shop-frontend/dist` is derived from the base name). -/
def cfgShop : Config := { baseName := "shop", packaging := "war", javaVersion := "17" }

/-- Fetched descriptor with identifier `demo`, a parent reference, a
model-version element, no packaging, no properties and no build block
(the input of the end-to-end scenario of C4). -/
def pomDemo : Str := S "<project>\n  <modelVersion>4.0.0</modelVersion>\n  <parent>\n    <artifactId>spring-boot-starter-parent</artifactId>\n  </parent>\n  <artifactId>demo</artifactId>\n</project>\n"

/-- Standard descriptor layout with a build block holding a (empty) plugins
container, every identifier element on its own line. -/
def pomBuild : Str := S "<project>\n  <modelVersion>4.0.0</modelVersion>\n  <parent>\n    <artifactId>spring-boot-starter-parent</artifactId>\n  </parent>\n  <artifactId>demo</artifactId>\n  <build>\n    <plugins>\n    </plugins>\n  </build>\n</project>\n"

/-- Descriptor containing a model-version element and a parent reference but
no identifier element other than the fixed parent identifier (the
`MalformedDescriptor` scenario of C2). -/
def pomNoId : Str := S "<project>\n  <modelVersion>4.0.0</modelVersion>\n  <parent>\n    <artifactId>spring-boot-starter-parent</artifactId>\n  </parent>\n</project>\n"

/-- What the code actually produces on `pomNoId`: the identifier rename
silently no-ops while packaging and properties are still inserted. -/
def pomNoIdOut : Str := S "<project>\n  <modelVersion>4.0.0</modelVersion>\n  <packaging>war</packaging>\n    <properties>\n    <java.version>17</java.version>\n  </properties>\n<parent>\n    <artifactId>spring-boot-starter-parent</artifactId>\n  </parent>\n</project>\n"

/-- Descriptor whose project identifier and parent identifier share one
line: the greedy `.*` of the rename regex spans both elements. -/
def pomOneLine : Str := S "<project>\n  <modelVersion>4.0.0</modelVersion>\n  <artifactId>demo</artifactId><parent><artifactId>spring-boot-starter-parent</artifactId></parent>\n</project>\n"

/-- Descriptor with no packaging element and no model-version element (the
anchor of the packaging insertion is absent). -/
def pomNoMv : Str := S "<project>\n  <parent>\n    <artifactId>spring-boot-starter-parent</artifactId>\n  </parent>\n  <artifactId>demo</artifactId>\n</project>\n"

/-- Descriptor with a packaging element placed inside the identifier
element's line (and no model-version element). -/
def pomPkInline : Str := S "<project>\n  <artifactId>demo<packaging>jar</packaging></artifactId>\n</project>\n"

/-- Standard descriptor already containing a packaging element on its own
line. -/
def pomPk : Str := S "<project>\n  <modelVersion>4.0.0</modelVersion>\n  <packaging>jar</packaging>\n  <parent>\n    <artifactId>spring-boot-starter-parent</artifactId>\n  </parent>\n  <artifactId>demo</artifactId>\n</project>\n"

/-- Minimal descriptor with no packaging, no model-version, no plugins and
no build element. -/
def pomBare : Str := S "<project>\n  <artifactId>demo</artifactId>\n</project>\n"

/-- Count occurrence positions of `pat` in `s`, carrying an accumulator. -/
def countOccAux (pat : Str) : Str → Nat → Nat
  | [],        n => if pat.isPrefixOf [] then n + 1 else n
  | c :: rest, n => countOccAux pat rest (if pat.isPrefixOf (c :: rest) then n + 1 else n)

/-- Number of positions at which `pat` occurs in `s`. -/
def countOcc (pat s : Str) : Nat := countOccAux pat s 0

/-- `clash x y` holds when `x` and `y` differ at some position inside their
common length; then `x` is a prefix of no right-extension of `y`. -/
def clash : Str → Str → Bool
  | [], _ => false
  | _, [] => false
  | a :: as, b :: bs => a != b || clash as bs

/-- Side conditions under which splicing `lit1 ++ m ++ lit2` (for any
`<`-free middle `m`) into a document cannot create a new occurrence of a
pattern `pat` that starts with `<`: `pat` occurs in neither literal, no
nonempty proper prefix of `pat` ends the first literal, every nonempty
proper suffix of `pat` mismatches the first literal, and every nonempty
proper prefix of `pat` mismatches the second literal read backwards. -/
def Insulates (pat lit1 lit2 : Str) : Prop :=
  inc pat lit1 = false ∧ inc pat lit2 = false ∧
  (∀ j, j < pat.length → 0 < j → (pat.take j).isSuffixOf lit1 = false) ∧
  (∀ j, j < pat.length → 0 < j → clash (pat.drop j) lit1 = true) ∧
  (∀ j, j < pat.length → 0 < j → clash (pat.take j).reverse lit2.reverse = true)

instance (pat lit1 lit2 : Str) : Decidable (Insulates pat lit1 lit2) := by
  unfold Insulates; infer_instance

/-! ### Facts about the scanning primitives -/

theorem inc_of_pref {pat s : Str} (h : pat.isPrefixOf s = true) : inc pat s = true := by
  cases s with
  | nil => simpa [inc] using h
  | cons c rest => simp [inc, h]

theorem inc_cons_tail {pat s : Str} {c : Char} (h : inc pat s = true) :
    inc pat (c :: s) = true := by
  simp [inc, h]

theorem inc_iff_exists {pat s : Str} :
    inc pat s = true ↔ ∃ i, pat.isPrefixOf (s.drop i) = true := by
  induction s with
  | nil =>
    constructor
    · intro h; exact ⟨0, by simpa [inc] using h⟩
    · rintro ⟨i, h⟩; simp only [List.drop_nil] at h; simpa [inc] using h
  | cons c rest ih =>
    constructor
    · intro h
      rcases (by simpa [inc] using h :
          pat.isPrefixOf (c :: rest) = true ∨ inc pat rest = true) with h | h
      · exact ⟨0, by simpa using h⟩
      · rcases ih.mp h with ⟨i, hi⟩
        exact ⟨i + 1, by simpa using hi⟩
    · rintro ⟨i, hi⟩
      cases i with
      | zero => exact inc_of_pref (by simpa using hi)
      | succ i => exact inc_cons_tail (ih.mpr ⟨i, by simpa using hi⟩)

theorem inc_drop_true {pat s : Str} {n : Nat} (h : inc pat (s.drop n) = true) :
    inc pat s = true := by
  rcases inc_iff_exists.mp h with ⟨i, hi⟩
  rw [List.drop_drop] at hi
  exact inc_iff_exists.mpr ⟨n + i, hi⟩

theorem inc_take_true {pat s : Str} {n : Nat} (h : inc pat (s.take n) = true) :
    inc pat s = true := by
  rcases inc_iff_exists.mp h with ⟨i, hi⟩
  rw [List.drop_take] at hi
  have h2 : pat <+: s.drop i :=
    (List.isPrefixOf_iff_prefix.mp hi).trans (List.take_prefix _ _)
  exact inc_iff_exists.mpr ⟨i, List.isPrefixOf_iff_prefix.mpr h2⟩

theorem inc_take_false {pat s : Str} (h : inc pat s = false) (n : Nat) :
    inc pat (s.take n) = false := by
  cases hx : inc pat (s.take n) with
  | false => rfl
  | true => simp [inc_take_true hx] at h

theorem inc_drop_false {pat s : Str} (h : inc pat s = false) (n : Nat) :
    inc pat (s.drop n) = false := by
  cases hx : inc pat (s.drop n) with
  | false => rfl
  | true => simp [inc_drop_true hx] at h

theorem pref_append_left {x u v : Str} (h : x.isPrefixOf (u ++ v) = true)
    (hl : x.length ≤ u.length) : x.isPrefixOf u = true := by
  have h2 : x = (u ++ v).take x.length :=
    List.prefix_iff_eq_take.mp (List.isPrefixOf_iff_prefix.mp h)
  rw [List.take_append_of_le_length hl] at h2
  rw [h2]
  exact List.isPrefixOf_iff_prefix.mpr (List.take_prefix x.length u)

theorem pref_append_take {x u v : Str} (h : x.isPrefixOf (u ++ v) = true)
    (hl : u.length ≤ x.length) : x.take u.length = u := by
  have h2 : x = (u ++ v).take x.length :=
    List.prefix_iff_eq_take.mp (List.isPrefixOf_iff_prefix.mp h)
  rw [h2, List.take_take, Nat.min_eq_left hl, List.take_left]

theorem pref_append_drop {x u v : Str} (h : x.isPrefixOf (u ++ v) = true) :
    (x.drop u.length).isPrefixOf v = true := by
  have h2 : x = (u ++ v).take x.length :=
    List.prefix_iff_eq_take.mp (List.isPrefixOf_iff_prefix.mp h)
  rw [h2, List.drop_take, List.drop_left]
  exact List.isPrefixOf_iff_prefix.mpr (List.take_prefix _ _)

theorem suff_cons {x A : Str} {a : Char} (h : x.isSuffixOf A = true) :
    x.isSuffixOf (a :: A) = true :=
  List.isSuffixOf_iff_suffix.mpr
    ((List.isSuffixOf_iff_suffix.mp h).trans (List.suffix_cons a A))

theorem inc_append_cases {pat : Str} : ∀ {A C : Str}, inc pat (A ++ C) = true →
    inc pat A = true ∨ inc pat C = true ∨
    ∃ j, 0 < j ∧ j < pat.length ∧ (pat.take j).isSuffixOf A = true ∧
      (pat.drop j).isPrefixOf C = true := by
  intro A
  induction A with
  | nil => intro C h; exact Or.inr (Or.inl (by simpa using h))
  | cons a A' ih =>
    intro C h
    have h' : pat.isPrefixOf (a :: (A' ++ C)) = true ∨ inc pat (A' ++ C) = true := by
      simpa [inc] using h
    rcases h' with h' | h'
    · by_cases hl : pat.length ≤ (a :: A').length
      · have hp : pat.isPrefixOf (a :: A') = true :=
          pref_append_left (x := pat) (u := a :: A') (v := C) (by simpa using h') hl
        exact Or.inl (inc_of_pref hp)
      · push_neg at hl
        refine Or.inr (Or.inr ⟨(a :: A').length, by simp, hl, ?_, ?_⟩)
        · have ht : pat.take (a :: A').length = a :: A' :=
            pref_append_take (v := C) (by simpa using h') (Nat.le_of_lt hl)
          rw [ht]
          exact List.isSuffixOf_iff_suffix.mpr (List.suffix_refl _)
        · exact pref_append_drop (v := C) (by simpa using h')
    · rcases ih h' with h'' | h'' | ⟨j, hj0, hjl, hsuf, hpre⟩
      · exact Or.inl (inc_cons_tail h'')
      · exact Or.inr (Or.inl h'')
      · exact Or.inr (Or.inr ⟨j, hj0, hjl, suff_cons hsuf, hpre⟩)

theorem clash_not_pref : ∀ {x y : Str}, clash x y = true →
    ∀ z, x.isPrefixOf (y ++ z) = false := by
  intro x
  induction x with
  | nil => intro y h; simp [clash] at h
  | cons a as ih =>
    intro y h z
    cases y with
    | nil => simp [clash] at h
    | cons b bs =>
      have h' : (a != b) = true ∨ clash as bs = true := by simpa [clash] using h
      rcases h' with h' | h'
      · have hab : (a == b) = false := by simpa [bne] using h'
        simp [List.isPrefixOf, hab]
      · simp [List.isPrefixOf, ih h' z]

theorem clash_not_suff {x y : Str} (h : clash x.reverse y.reverse = true) (z : Str) :
    x.isSuffixOf (z ++ y) = false := by
  show x.reverse.isPrefixOf (z ++ y).reverse = false
  rw [List.reverse_append]
  exact clash_not_pref h z.reverse

theorem not_inc_lt_free {pat m : Str} (hhd : pat.head? = some '<')
    (hm : ∀ c ∈ m, c ≠ '<') : inc pat m = false := by
  cases pat with
  | nil => simp at hhd
  | cons p ps =>
    have hp : p = '<' := by simpa using hhd
    subst hp
    cases hx : inc ('<' :: ps) m with
    | false => rfl
    | true =>
      exfalso
      rcases inc_iff_exists.mp hx with ⟨i, hi⟩
      cases hd : m.drop i with
      | nil => rw [hd] at hi; simp [List.isPrefixOf] at hi
      | cons c cs =>
        rw [hd] at hi
        simp only [List.isPrefixOf, Bool.and_eq_true, beq_iff_eq] at hi
        have hcm : c ∈ m := List.mem_of_mem_drop (hd ▸ List.mem_cons_self c cs)
        exact hm c hcm hi.1.symm

theorem take_not_suff_lt_free {pat m : Str} {j : Nat} (hj : 0 < j)
    (hhd : pat.head? = some '<') (hm : ∀ c ∈ m, c ≠ '<') :
    (pat.take j).isSuffixOf m = false := by
  cases pat with
  | nil => simp at hhd
  | cons p ps =>
    have hp : p = '<' := by simpa using hhd
    subst hp
    cases j with
    | zero => exact absurd hj (lt_irrefl 0)
    | succ j' =>
      cases hx : (('<' :: ps).take (j' + 1)).isSuffixOf m with
      | false => rfl
      | true =>
        exfalso
        have hsub : ('<' :: ps.take j') ⊆ m := by
          have hs := (List.isSuffixOf_iff_suffix.mp hx).subset
          simpa [List.take_succ_cons] using hs
        exact hm '<' (hsub (List.mem_cons_self _ _)) rfl

theorem not_inc_wrap {pat lit1 m lit2 A B : Str}
    (hhd : pat.head? = some '<') (hm : ∀ c ∈ m, c ≠ '<')
    (hA : inc pat A = false) (hB : inc pat B = false)
    (hins : Insulates pat lit1 lit2) :
    inc pat (A ++ lit1 ++ m ++ lit2 ++ B) = false := by
  obtain ⟨h1, h2, h3, h5, h6⟩ := hins
  cases hx : inc pat (A ++ lit1 ++ m ++ lit2 ++ B) with
  | false => rfl
  | true =>
    exfalso
    have hx' : inc pat (A ++ ((lit1 ++ (m ++ lit2)) ++ B)) = true := by
      simpa [List.append_assoc] using hx
    rcases inc_append_cases hx' with h | h | ⟨j1, hj1, hjl1, _, hpre1⟩
    · simp [hA] at h
    · rcases inc_append_cases h with h' | h' | ⟨j2, hj2, hjl2, hsuf2, _⟩
      · rcases inc_append_cases h' with h'' | h'' | ⟨j3, hj3, hjl3, hsuf3, _⟩
        · simp [h1] at h''
        · rcases inc_append_cases h'' with h4 | h4 | ⟨j4, hj4, hjl4, hsuf4, _⟩
          · simp [not_inc_lt_free hhd hm] at h4
          · simp [h2] at h4
          · simp [take_not_suff_lt_free hj4 hhd hm] at hsuf4
        · simp [h3 j3 hjl3 hj3] at hsuf3
      · simp [hB] at h'
      · have hfalse := clash_not_suff (h6 j2 hjl2 hj2) (lit1 ++ m)
        rw [List.append_assoc] at hfalse
        rw [hsuf2] at hfalse
        exact Bool.noConfusion hfalse
    · have hfalse := clash_not_pref (h5 j1 hjl1 hj1) ((m ++ lit2) ++ B)
      rw [List.append_assoc] at hpre1
      rw [hpre1] at hfalse
      exact Bool.noConfusion hfalse

theorem findFromAux_none {pat : Str} : ∀ {s : Str}, inc pat s = false →
    ∀ i, findFromAux pat s i = none := by
  intro s
  induction s with
  | nil =>
    intro h i
    have hp : pat.isPrefixOf [] = false := by simpa [inc] using h
    simp [findFromAux, hp]
  | cons c rest ih =>
    intro h i
    have h' : pat.isPrefixOf (c :: rest) = false ∧ inc pat rest = false := by
      simpa [inc] using h
    simp [findFromAux, h'.1, ih h'.2]

theorem findFrom_none {pat s : Str} (h : inc pat s = false) : findFrom pat s = none :=
  findFromAux_none h 0

theorem replaceFirstLit_noop {pat repl s : Str} (h : inc pat s = false) :
    replaceFirstLit pat repl s = s := by
  unfold replaceFirstLit
  rw [findFrom_none h]

theorem findFromAux_some_inc {pat : Str} : ∀ {s : Str} {i j : Nat},
    findFromAux pat s i = some j → inc pat s = true := by
  intro s
  induction s with
  | nil =>
    intro i j h
    by_cases hp : pat.isPrefixOf [] = true
    · exact inc_of_pref hp
    · rw [Bool.not_eq_true] at hp
      simp [findFromAux, hp] at h
  | cons c rest ih =>
    intro i j h
    by_cases hp : pat.isPrefixOf (c :: rest) = true
    · exact inc_of_pref hp
    · rw [Bool.not_eq_true] at hp
      simp only [findFromAux, hp, Bool.false_eq_true, if_false] at h
      exact inc_cons_tail (ih h)

theorem findFrom_some_inc {pat s : Str} {j : Nat} (h : findFrom pat s = some j) :
    inc pat s = true :=
  findFromAux_some_inc h

theorem inc_app_self (A pat B : Str) : inc pat (A ++ (pat ++ B)) = true := by
  induction A with
  | nil => simpa using inc_of_pref (List.isPrefixOf_iff_prefix.mpr (List.prefix_append pat B))
  | cons a A' ih => simpa using inc_cons_tail (c := a) (by simpa using ih)

theorem patMatch_map_lit : ∀ (l t : Str), patMatch (l.map Tok.lit) t = l.isPrefixOf t := by
  intro l
  induction l with
  | nil => intro t; cases t <;> simp [patMatch, List.isPrefixOf]
  | cons a as ih =>
    intro t
    cases t with
    | nil => simp [patMatch, List.isPrefixOf]
    | cons b bs => simp [patMatch, List.isPrefixOf, tokMatch, ih]

theorem patMatch_litPat (str : String) (t : Str) :
    patMatch (litPat str) t = (S str).isPrefixOf t :=
  patMatch_map_lit str.data t

theorem findOCAux_litOpen_none {lit : String} {close : Pat} : ∀ {s : Str},
    inc (S lit) s = false → ∀ i, findOCAux (pOpen (litPat lit)) close s i = none := by
  intro s
  induction s with
  | nil =>
    intro h i
    have hp : (S lit).isPrefixOf [] = false := by simpa [inc] using h
    simp [findOCAux, pOpen, patMatch_litPat, hp]
  | cons c rest ih =>
    intro h i
    have h' : (S lit).isPrefixOf (c :: rest) = false ∧ inc (S lit) rest = false := by
      simpa [inc] using h
    simp [findOCAux, pOpen, patMatch_litPat, h'.1, ih h'.2]

theorem findOC_litOpen_none {lit : String} {close : Pat} {s : Str}
    (h : inc (S lit) s = false) : findOC (pOpen (litPat lit)) close s = none :=
  findOCAux_litOpen_none h 0

theorem replaceOC_litOpen_noop {lit : String} {close : Pat} {r : Str → Str} {s : Str}
    (h : inc (S lit) s = false) :
    replaceOC (pOpen (litPat lit)) close r s = s := by
  unfold replaceOC
  rw [findOC_litOpen_none h]

theorem injectPlugin_noop {cfg : Config} {s : Str}
    (h1 : inc (S "<plugins>") s = false) (h2 : inc (S "<build>") s = false) :
    injectPlugin cfg s = s := by
  unfold injectPlugin
  rw [if_neg (by simp [h1]), replaceFirstLit_noop h2]

theorem setPackaging_noop {cfg : Config} {s : Str}
    (h1 : inc (S "<packaging>") s = false) (h2 : inc (S "<modelVersion>") s = false) :
    setPackaging cfg s = s := by
  unfold setPackaging
  rw [if_neg (by simp [h1]), replaceOC_litOpen_noop h2]

/-! ### Preservation of absent patterns through each merge step -/

theorem renameArtifact_pres {cfg : Config} {pat s : Str}
    (hhd : pat.head? = some '<')
    (hbase : ∀ c ∈ S cfg.baseName, c ≠ '<')
    (hins : Insulates pat (S "<artifactId>") (S "-backend</artifactId>"))
    (hs : inc pat s = false) :
    inc pat (renameArtifact cfg s) = false := by
  unfold renameArtifact replaceOC
  split
  · exact hs
  · next i d heq =>
      have hw := not_inc_wrap (m := S cfg.baseName) (A := s.take i) (B := s.drop (i + d))
        hhd hbase (inc_take_false hs i) (inc_drop_false hs (i + d)) hins
      simpa [List.append_assoc] using hw

theorem setPackaging_pres {cfg : Config} {pat s : Str}
    (hhd : pat.head? = some '<')
    (hpk : ∀ c ∈ S cfg.packaging, c ≠ '<')
    (hi1 : Insulates pat (S "<packaging>") (S "</packaging>"))
    (hi2 : Insulates pat (S "\n  <packaging>") (S "</packaging>"))
    (hs : inc pat s = false) :
    inc pat (setPackaging cfg s) = false := by
  unfold setPackaging
  split
  · unfold replaceOC
    split
    · exact hs
    · next i d heq =>
        have hw := not_inc_wrap (m := S cfg.packaging) (A := s.take i) (B := s.drop (i + d))
          hhd hpk (inc_take_false hs i) (inc_drop_false hs (i + d)) hi1
        simpa [List.append_assoc] using hw
  · unfold replaceOC
    split
    · exact hs
    · next i d heq =>
        have hw := not_inc_wrap (m := S cfg.packaging) (A := s.take (i + d)) (B := s.drop (i + d))
          hhd hpk (inc_take_false hs (i + d)) (inc_drop_false hs (i + d)) hi2
        rw [List.take_add] at hw
        simpa [List.append_assoc] using hw

theorem setJavaVersion_pres {cfg : Config} {pat s : Str}
    (hhd : pat.head? = some '<')
    (hjv : ∀ c ∈ S cfg.javaVersion, c ≠ '<')
    (hi1 : Insulates pat (S "<java.version>") (S "</java.version>"))
    (hi2 : Insulates pat (S "  <properties>\n    <java.version>")
      (S "</java.version>\n  </properties>\n" ++ S "<parent>"))
    (hs : inc pat s = false) :
    inc pat (setJavaVersion cfg s) = false := by
  unfold setJavaVersion
  split
  · unfold replaceOC
    split
    · exact hs
    · next i d heq =>
        have hw := not_inc_wrap (m := S cfg.javaVersion) (A := s.take i) (B := s.drop (i + d))
          hhd hjv (inc_take_false hs i) (inc_drop_false hs (i + d)) hi1
        simpa [List.append_assoc] using hw
  · unfold replaceFirstLit
    split
    · exact hs
    · next i heq =>
        have hw := not_inc_wrap (m := S cfg.javaVersion) (A := s.take i)
          (B := s.drop (i + (S "<parent>").length))
          hhd hjv (inc_take_false hs i) (inc_drop_false hs (i + (S "<parent>").length)) hi2
        simpa [List.append_assoc] using hw

theorem injectPlugin_pres {cfg : Config} {pat s : Str}
    (hhd : pat.head? = some '<')
    (hbase : ∀ c ∈ S cfg.baseName, c ≠ '<')
    (hi1 : Insulates pat (S "<plugins>" ++ snipA) snipB)
    (hi2 : Insulates pat (S "<build>\n<plugins>" ++ snipA) (snipB ++ S "</plugins>"))
    (hs : inc pat s = false) :
    inc pat (injectPlugin cfg s) = false := by
  unfold injectPlugin
  split
  · unfold replaceFirstLit
    split
    · exact hs
    · next i heq =>
        have hw := not_inc_wrap (m := S cfg.baseName) (A := s.take i)
          (B := s.drop (i + (S "<plugins>").length))
          hhd hbase (inc_take_false hs i) (inc_drop_false hs (i + (S "<plugins>").length)) hi1
        simpa [pluginSnippet, List.append_assoc] using hw
  · unfold replaceFirstLit
    split
    · exact hs
    · next i heq =>
        have hw := not_inc_wrap (m := S cfg.baseName) (A := s.take i)
          (B := s.drop (i + (S "<build>").length))
          hhd hbase (inc_take_false hs i) (inc_drop_false hs (i + (S "<build>").length)) hi2
        simpa [pluginSnippet, List.append_assoc] using hw

theorem drop_len_append (A C : Str) (n : Nat) : (A ++ C).drop (A.length + n) = C.drop n := by
  rw [← List.drop_drop, List.drop_left]

/-! ### Claims settled on concrete inputs -/

/-- Claim C1, evidence of the code defect: merging the same descriptor twice
with the same configuration is NOT idempotent — after one merge the plugins
container holds one `copy-frontend` step, after a second merge it holds two.
The claim states the invariant the spec requires; the code prepends the
snippet unconditionally on every run. -/
theorem c1_merge_twice_duplicates_step :
    countOcc (S "<id>copy-frontend</id>") (mergePom cfgShop pomBuild) = 1 ∧
    countOcc (S "<id>copy-frontend</id>") (mergePom cfgShop (mergePom cfgShop pomBuild)) = 2 := by
  decide

/-- Claim C2, evidence of the code defect: on a document whose only
identifier element is the fixed parent identifier, the rename regex finds no
match and `replace` silently returns the string unchanged — no
`MalformedDescriptor` condition exists anywhere in the code, and the merge
still runs to completion producing an otherwise-transformed document. -/
theorem c2_missing_identifier_silently_ignored :
    renameArtifact cfgShop pomNoId = pomNoId ∧
    mergePom cfgShop pomNoId = pomNoIdOut := by
  decide

/-- Claim C3, counterexample: the claim quantifies over every input
document, but when the project identifier element and the parent identifier
element share one line, the greedy `.*` of the rename regex matches from the
first `<artifactId>` to the last `</artifactId>` of the line and the
replacement erases the parent identifier entirely. -/
theorem c3_parent_identifier_destroyed :
    inc (S "<artifactId>spring-boot-starter-parent</artifactId>") pomOneLine = true ∧
    inc (S "spring-boot-starter-parent") (mergePom cfgShop pomOneLine) = false := by
  decide

/-- Claim C3, amended: for every configuration and every document in which
the leftmost match of the rename regex is exactly an identifier element (one
not followed by the parent marker, i.e. the project's own identifier), the
rename step of merge replaces precisely that element by
`<artifactId>${artifactId}-backend</artifactId>` and reproduces the rest of
the document verbatim — in particular a fixed parent-identifier element
occurring anywhere before or after the matched element survives unmodified;
and on the representative standard-layout descriptor the full merge keeps
exactly the one occurrence of the parent identifier element while renaming
the project identifier from `demo` to `shop-backend`. -/
theorem c3_parent_identifier_preserved_standard :
    (∀ (cfg : Config) (A name B : Str),
        findOC artOpen (litPat "</artifactId>")
            (A ++ S "<artifactId>" ++ name ++ S "</artifactId>" ++ B) =
          some (A.length, (S "<artifactId>" ++ name ++ S "</artifactId>").length) →
        renameArtifact cfg (A ++ S "<artifactId>" ++ name ++ S "</artifactId>" ++ B) =
          A ++ S "<artifactId>" ++ S cfg.baseName ++ S "-backend</artifactId>" ++ B) ∧
    countOcc (S "<artifactId>spring-boot-starter-parent</artifactId>") pomBuild = 1 ∧
    countOcc (S "<artifactId>spring-boot-starter-parent</artifactId>") (mergePom cfgShop pomBuild) = 1 ∧
    inc (S "<artifactId>shop-backend</artifactId>") (mergePom cfgShop pomBuild) = true ∧
    inc (S "<artifactId>demo</artifactId>") (mergePom cfgShop pomBuild) = false := by
  refine ⟨?_, by decide, by decide, by decide, by decide⟩
  intro cfg A name B hOC
  unfold renameArtifact replaceOC
  rw [hOC]
  dsimp only
  have hre : A ++ S "<artifactId>" ++ name ++ S "</artifactId>" ++ B
      = A ++ ((S "<artifactId>" ++ name ++ S "</artifactId>") ++ B) := by
    simp [List.append_assoc]
  rw [hre, List.take_left, drop_len_append, List.drop_left]
  simp [List.append_assoc]

/-- Witness for C3: the rename equation at a concrete document whose prefix
holds the parent identifier element, which survives verbatim. -/
theorem c3_parent_identifier_preserved_witness :
    renameArtifact cfgShop
        (S "<parent><artifactId>spring-boot-starter-parent</artifactId></parent>\n"
          ++ S "<artifactId>" ++ S "demo" ++ S "</artifactId>" ++ S "\n</project>") =
      S "<parent><artifactId>spring-boot-starter-parent</artifactId></parent>\n"
        ++ S "<artifactId>" ++ S cfgShop.baseName ++ S "-backend</artifactId>"
        ++ S "\n</project>" :=
  c3_parent_identifier_preserved_standard.1 cfgShop
    (S "<parent><artifactId>spring-boot-starter-parent</artifactId></parent>\n")
    (S "demo") (S "\n</project>") (by decide)

/-- Claim C4, counterexample: on the exact end-to-end scenario input (which
has no build block), the output of merge contains NO `copy-frontend` step
and no build block at all — the injection requires an existing `<build>` or
`<plugins>` tag and silently no-ops here, contradicting the claimed output. -/
theorem c4_no_build_step_created :
    inc (S "<id>copy-frontend</id>") (mergePom cfgShop pomDemo) = false ∧
    inc (S "<build>") (mergePom cfgShop pomDemo) = false := by
  decide

/-- Claim C4, amended: on the end-to-end scenario input the output contains
identifier `shop-backend`, `<packaging>war</packaging>` and a properties
block with `<java.version>17</java.version>`, but no `copy-frontend` step,
because the input has no build block for the injection to anchor on. -/
theorem c4_scenario_amended :
    inc (S "<artifactId>shop-backend</artifactId>") (mergePom cfgShop pomDemo) = true ∧
    inc (S "<packaging>war</packaging>") (mergePom cfgShop pomDemo) = true ∧
    inc (S "<properties>") (mergePom cfgShop pomDemo) = true ∧
    inc (S "<java.version>17</java.version>") (mergePom cfgShop pomDemo) = true ∧
    countOcc (S "<id>copy-frontend</id>") (mergePom cfgShop pomDemo) = 0 := by
  decide

/-- Claim C5, counterexample: for a document with neither a `<plugins>`
container nor a `<build>` element the claim asserts a build block holding
the one step is created; the code instead leaves the document without any
plugins container or copy-frontend step. -/
theorem c5_missing_build_block_no_creation :
    inc (S "<plugins>") pomDemo = false ∧
    inc (S "<build>") pomDemo = false ∧
    inc (S "<plugins>") (mergePom cfgShop pomDemo) = false ∧
    inc (S "<id>copy-frontend</id>") (mergePom cfgShop pomDemo) = false := by
  decide

/-- Claim C6, counterexample: the claim quantifies over every document with
no packaging element, but when the model-version anchor is also absent the
insertion regex never matches and the output still has no packaging
element (not exactly one). -/
theorem c6_no_modelversion_no_packaging_inserted :
    inc (S "<packaging>") pomNoMv = false ∧
    countOcc (S "<packaging>") (mergePom cfgShop pomNoMv) = 0 := by
  decide

/-- Claim C7, counterexample: a packaging element sitting inside the line
matched by the identifier rename is destroyed by the rename step before the
packaging step runs; with no model-version anchor either, the packaging
element count drops from one to zero instead of staying unchanged. -/
theorem c7_packaging_element_lost :
    inc (S "<packaging>jar</packaging>") pomPkInline = true ∧
    countOcc (S "<packaging>") pomPkInline = 1 ∧
    countOcc (S "<packaging>") (mergePom cfgShop pomPkInline) = 0 := by
  decide

/-- Claim C5, amended: the build-step injection behaves as follows — if a
`<plugins>` container exists (its first occurrence at the end of prefix `A`),
the snippet is inserted right after the container's opening tag, i.e. as its
first child; otherwise, if a `<build>` element exists, a plugins container
holding the one step is inserted right after the `<build>` opening tag; and
if neither exists nothing is injected (no build block is created). -/
theorem c5_injection_branches :
    (∀ (cfg : Config) (A B : Str),
        findFrom (S "<plugins>") (A ++ S "<plugins>" ++ B) = some A.length →
        injectPlugin cfg (A ++ S "<plugins>" ++ B) =
          A ++ S "<plugins>" ++ pluginSnippet cfg ++ B) ∧
    (∀ (cfg : Config) (A B : Str),
        inc (S "<plugins>") (A ++ S "<build>" ++ B) = false →
        findFrom (S "<build>") (A ++ S "<build>" ++ B) = some A.length →
        injectPlugin cfg (A ++ S "<build>" ++ B) =
          A ++ S "<build>" ++ S "\n<plugins>" ++ pluginSnippet cfg ++ S "</plugins>" ++ B) ∧
    (∀ (cfg : Config) (s : Str),
        inc (S "<plugins>") s = false → inc (S "<build>") s = false →
        injectPlugin cfg s = s) := by
  refine ⟨?_, ?_, ?_⟩
  · intro cfg A B hF
    have hinc : inc (S "<plugins>") (A ++ S "<plugins>" ++ B) = true := findFrom_some_inc hF
    unfold injectPlugin
    rw [if_pos hinc]
    unfold replaceFirstLit
    rw [hF]
    dsimp only
    have hre : A ++ S "<plugins>" ++ B = A ++ (S "<plugins>" ++ B) := by
      simp [List.append_assoc]
    rw [hre, List.take_left, drop_len_append, List.drop_left]
    simp [List.append_assoc]
  · intro cfg A B hinc hF
    unfold injectPlugin
    rw [if_neg (by rw [hinc]; simp)]
    unfold replaceFirstLit
    rw [hF]
    dsimp only
    have hre : A ++ S "<build>" ++ B = A ++ (S "<build>" ++ B) := by
      simp [List.append_assoc]
    rw [hre, List.take_left, drop_len_append, List.drop_left]
    have hsplit : S "<build>\n<plugins>" = S "<build>" ++ S "\n<plugins>" := by decide
    rw [hsplit]
    simp [List.append_assoc]
  · intro cfg s h1 h2
    exact injectPlugin_noop h1 h2

/-- Witness for C5: all three branches at concrete inputs. -/
theorem c5_injection_branches_witness :
    injectPlugin cfgShop (S "<build>" ++ S "<plugins>" ++ S "</plugins></build>") =
      S "<build>" ++ S "<plugins>" ++ pluginSnippet cfgShop ++ S "</plugins></build>" ∧
    injectPlugin cfgShop (S "<a>" ++ S "<build>" ++ S "</build>") =
      S "<a>" ++ S "<build>" ++ S "\n<plugins>" ++ pluginSnippet cfgShop
        ++ S "</plugins>" ++ S "</build>" ∧
    injectPlugin cfgShop pomBare = pomBare :=
  ⟨c5_injection_branches.1 cfgShop (S "<build>") (S "</plugins></build>") (by decide),
   c5_injection_branches.2.1 cfgShop (S "<a>") (S "</build>") (by decide) (by decide),
   c5_injection_branches.2.2 cfgShop pomBare (by decide) (by decide)⟩

/-- Claim C6, amended: on a document with no packaging element but with a
model-version element (the leftmost open-close match of the insertion regex),
the packaging step inserts exactly one packaging element with the configured
value immediately after the model-version element; on the end-to-end input
the merged output indeed holds exactly one packaging element, right after
the model-version declaration.  (Without a model-version element the
insertion silently no-ops, see C10.) -/
theorem c6_packaging_insertion :
    (∀ (cfg : Config) (A mvv B : Str),
        inc (S "<packaging>") (A ++ S "<modelVersion>" ++ mvv ++ S "</modelVersion>" ++ B) = false →
        findOC (pOpen (litPat "<modelVersion>")) (litPat "</modelVersion>")
            (A ++ S "<modelVersion>" ++ mvv ++ S "</modelVersion>" ++ B) =
          some (A.length, (S "<modelVersion>" ++ mvv ++ S "</modelVersion>").length) →
        setPackaging cfg (A ++ S "<modelVersion>" ++ mvv ++ S "</modelVersion>" ++ B) =
          A ++ S "<modelVersion>" ++ mvv ++ S "</modelVersion>" ++ S "\n  <packaging>"
            ++ S cfg.packaging ++ S "</packaging>" ++ B) ∧
    inc (S "</modelVersion>\n  <packaging>war</packaging>") (mergePom cfgShop pomDemo) = true ∧
    countOcc (S "<packaging>") (mergePom cfgShop pomDemo) = 1 := by
  refine ⟨?_, by decide, by decide⟩
  intro cfg A mvv B hinc hOC
  unfold setPackaging
  rw [if_neg (by rw [hinc]; simp)]
  unfold replaceOC
  rw [hOC]
  dsimp only
  have hre : A ++ S "<modelVersion>" ++ mvv ++ S "</modelVersion>" ++ B
      = A ++ ((S "<modelVersion>" ++ mvv ++ S "</modelVersion>") ++ B) := by
    simp [List.append_assoc]
  rw [hre, List.take_left, List.drop_left, List.take_left, drop_len_append, List.drop_left]
  simp [List.append_assoc]

/-- Witness for C6: a concrete insertion after the model-version element. -/
theorem c6_packaging_insertion_witness :
    setPackaging cfgShop (S "<p>\n" ++ S "<modelVersion>" ++ S "4.0.0"
        ++ S "</modelVersion>" ++ S "\n</p>") =
      S "<p>\n" ++ S "<modelVersion>" ++ S "4.0.0" ++ S "</modelVersion>"
        ++ S "\n  <packaging>" ++ S cfgShop.packaging ++ S "</packaging>" ++ S "\n</p>" :=
  c6_packaging_insertion.1 cfgShop (S "<p>\n") (S "4.0.0") (S "\n</p>")
    (by decide) (by decide)

/-- Claim C7, amended: when the packaging element is the leftmost open-close
match of the overwrite regex (in particular when it sits on its own line,
outside the span the identifier rename matches), the packaging step
overwrites the element's value in place, leaving everything around it
unchanged; on a standard descriptor the full merge keeps the packaging
element count at one and replaces the value `jar` by the configured `war`. -/
theorem c7_packaging_overwrite :
    (∀ (cfg : Config) (A v B : Str),
        findOC (pOpen (litPat "<packaging>")) (litPat "</packaging>")
            (A ++ S "<packaging>" ++ v ++ S "</packaging>" ++ B) =
          some (A.length, (S "<packaging>" ++ v ++ S "</packaging>").length) →
        setPackaging cfg (A ++ S "<packaging>" ++ v ++ S "</packaging>" ++ B) =
          A ++ S "<packaging>" ++ S cfg.packaging ++ S "</packaging>" ++ B) ∧
    countOcc (S "<packaging>") pomPk = 1 ∧
    countOcc (S "<packaging>") (mergePom cfgShop pomPk) = 1 ∧
    inc (S "<packaging>war</packaging>") (mergePom cfgShop pomPk) = true ∧
    inc (S "<packaging>jar</packaging>") (mergePom cfgShop pomPk) = false := by
  refine ⟨?_, by decide, by decide, by decide, by decide⟩
  intro cfg A v B hOC
  have hinc : inc (S "<packaging>") (A ++ S "<packaging>" ++ v ++ S "</packaging>" ++ B) = true := by
    have h := inc_app_self A (S "<packaging>") (v ++ S "</packaging>" ++ B)
    simpa [List.append_assoc] using h
  unfold setPackaging
  rw [if_pos hinc]
  unfold replaceOC
  rw [hOC]
  dsimp only
  have hre : A ++ S "<packaging>" ++ v ++ S "</packaging>" ++ B
      = A ++ ((S "<packaging>" ++ v ++ S "</packaging>") ++ B) := by
    simp [List.append_assoc]
  rw [hre, List.take_left, drop_len_append, List.drop_left]
  simp [List.append_assoc]

/-- Witness for C7: a concrete in-place overwrite. -/
theorem c7_packaging_overwrite_witness :
    setPackaging cfgShop (S "<p>" ++ S "<packaging>" ++ S "jar"
        ++ S "</packaging>" ++ S "</p>") =
      S "<p>" ++ S "<packaging>" ++ S cfgShop.packaging ++ S "</packaging>" ++ S "</p>" :=
  c7_packaging_overwrite.1 cfgShop (S "<p>") (S "jar") (S "</p>") (by decide)

/-- Claim C9: for every validated configuration and every document that
contains neither a `<plugins>` container nor a `<build>` element, the
build-step injection of merge silently does nothing — the merge output is
exactly the result of the first three steps — and if the input has no
`copy-frontend` step the output has none either. -/
theorem c9_injection_noop (cfg : Config) (doc : Str) (hv : ValidConfig cfg)
    (hp : inc (S "<plugins>") doc = false) (hb : inc (S "<build>") doc = false) :
    mergePom cfg doc = setJavaVersion cfg (setPackaging cfg (renameArtifact cfg doc)) ∧
    (inc (S "<id>copy-frontend</id>") doc = false →
      inc (S "<id>copy-frontend</id>") (mergePom cfg doc) = false) := by
  obtain ⟨hb1, hb2, hb3⟩ := hv
  have hp1 : inc (S "<plugins>") (renameArtifact cfg doc) = false :=
    renameArtifact_pres (by decide) hb1 (by decide) hp
  have hp2 : inc (S "<plugins>") (setPackaging cfg (renameArtifact cfg doc)) = false :=
    setPackaging_pres (by decide) hb2 (by decide) (by decide) hp1
  have hp3 : inc (S "<plugins>")
      (setJavaVersion cfg (setPackaging cfg (renameArtifact cfg doc))) = false :=
    setJavaVersion_pres (by decide) hb3 (by decide) (by decide) hp2
  have hq1 : inc (S "<build>") (renameArtifact cfg doc) = false :=
    renameArtifact_pres (by decide) hb1 (by decide) hb
  have hq2 : inc (S "<build>") (setPackaging cfg (renameArtifact cfg doc)) = false :=
    setPackaging_pres (by decide) hb2 (by decide) (by decide) hq1
  have hq3 : inc (S "<build>")
      (setJavaVersion cfg (setPackaging cfg (renameArtifact cfg doc))) = false :=
    setJavaVersion_pres (by decide) hb3 (by decide) (by decide) hq2
  have heq : mergePom cfg doc
      = setJavaVersion cfg (setPackaging cfg (renameArtifact cfg doc)) := by
    unfold mergePom
    exact injectPlugin_noop hp3 hq3
  refine ⟨heq, ?_⟩
  intro h3
  rw [heq]
  exact setJavaVersion_pres (by decide) hb3 (by decide) (by decide)
    (setPackaging_pres (by decide) hb2 (by decide) (by decide)
      (renameArtifact_pres (by decide) hb1 (by decide) h3))

/-- Witness for C9 at a concrete document with neither plugins nor build. -/
theorem c9_injection_noop_witness :
    mergePom cfgShop pomBare =
      setJavaVersion cfgShop (setPackaging cfgShop (renameArtifact cfgShop pomBare)) ∧
    inc (S "<id>copy-frontend</id>") (mergePom cfgShop pomBare) = false :=
  have h := c9_injection_noop cfgShop pomBare (by decide) (by decide) (by decide)
  ⟨h.1, h.2 (by decide)⟩

/-- Claim C10: for every validated configuration and every document with no
packaging element and no model-version element, the merge output still has
no packaging element: the packaging insertion silently no-ops when its
anchor is absent, and no later step introduces one. -/
theorem c10_packaging_noop (cfg : Config) (doc : Str) (hv : ValidConfig cfg)
    (hpk : inc (S "<packaging>") doc = false)
    (hmv : inc (S "<modelVersion>") doc = false) :
    inc (S "<packaging>") (mergePom cfg doc) = false := by
  obtain ⟨hb1, hb2, hb3⟩ := hv
  have hpk1 : inc (S "<packaging>") (renameArtifact cfg doc) = false :=
    renameArtifact_pres (by decide) hb1 (by decide) hpk
  have hmv1 : inc (S "<modelVersion>") (renameArtifact cfg doc) = false :=
    renameArtifact_pres (by decide) hb1 (by decide) hmv
  have h2 : setPackaging cfg (renameArtifact cfg doc) = renameArtifact cfg doc :=
    setPackaging_noop hpk1 hmv1
  have hpk3 : inc (S "<packaging>")
      (setJavaVersion cfg (setPackaging cfg (renameArtifact cfg doc))) = false := by
    rw [h2]
    exact setJavaVersion_pres (by decide) hb3 (by decide) (by decide) hpk1
  unfold mergePom
  exact injectPlugin_pres (by decide) hb1 (by decide) (by decide) hpk3

/-- Witness for C10 at a concrete document with no packaging and no
model-version element. -/
theorem c10_packaging_noop_witness :
    inc (S "<packaging>") (mergePom cfgShop pomNoMv) = false :=
  c10_packaging_noop cfgShop pomNoMv (by decide) (by decide) (by decide)

end PomMerge
